import Mathlib

/-!
Shallow embedding of the simulation core of `src/main.rs` (a Bevy 0.9
Galaga-style prototype) and proofs about its per-tick behavior.

Modelling conventions:
* `f32` coordinates, speeds and times are modelled as exact rationals `ℚ`.
* Bevy `Timer` (mode `Once`) is modelled by `TimerQ`: `tick` clamps the
  elapsed counter at the duration, `finished` is `duration ≤ elapsed`,
  `reset` zeroes the elapsed counter, and `just finished` is the one-tick
  edge `elapsed < duration ∧ duration ≤ elapsed + dt`.
* Bevy `Commands` (spawn/despawn) are deferred: each system returns the list
  of commands it queued, and the store is only updated after the system ran.
* Event queues are the per-tick lists handed to the consuming system.
-/

namespace Galaga

/-- Rational 2D vector standing in for Bevy's `Vec2`. -/
structure Vec2Q where
  x : ℚ
  y : ℚ
deriving DecidableEq

/-- Rational 3D vector standing in for Bevy's `Vec3` (z is paint order). -/
structure Vec3Q where
  x : ℚ
  y : ℚ
  z : ℚ
deriving DecidableEq

instance : Add Vec3Q := ⟨fun a b => ⟨a.x + b.x, a.y + b.y, a.z + b.z⟩⟩

/-- Componentwise scalar multiple of a `Vec3Q` (Bevy's `Vec3 * f32`). -/
def Vec3Q.smul (v : Vec3Q) (c : ℚ) : Vec3Q := ⟨v.x * c, v.y * c, v.z * c⟩

/-- Bevy's `Vec3::truncate`, dropping the z component. -/
def Vec3Q.truncate (v : Vec3Q) : Vec2Q := ⟨v.x, v.y⟩

/-- Transform of an entity: translation is the AABB center, scale its full
extent (as the source uses them). -/
structure TransformQ where
  translation : Vec3Q
  scale : Vec3Q
deriving DecidableEq

/-- Bevy `Timer` in `TimerMode::Once`: a duration plus an elapsed counter. -/
structure TimerQ where
  duration : ℚ
  elapsed : ℚ
deriving DecidableEq

/-- `Timer::tick(delta)` for a `Once` timer: elapsed accumulates, clamped at
the duration. -/
def TimerQ.tick (t : TimerQ) (dt : ℚ) : TimerQ :=
  { t with elapsed := min (t.elapsed + dt) t.duration }

/-- `Timer::finished()`: the timer reached its duration. -/
def TimerQ.finished (t : TimerQ) : Bool :=
  decide (t.duration ≤ t.elapsed)

/-- `Timer::reset()`: elapsed goes back to zero. -/
def TimerQ.reset (t : TimerQ) : TimerQ :=
  { t with elapsed := 0 }

/-- `Timer::just_finished()` after ticking a `Once` timer by `dt`: true
exactly on the tick during which the duration was reached. -/
def TimerQ.tickJustFinished (t : TimerQ) (dt : ℚ) : Bool :=
  decide (t.elapsed < t.duration) && decide (t.duration ≤ t.elapsed + dt)

/-- The global `GameState` resource. -/
structure GameStateQ where
  started : Bool
  paused : Bool
  intro : Bool
  level : ℕ
deriving DecidableEq

/-- The gate `game_state.started && !game_state.paused && !game_state.intro`
shared by `move_player` and `shoot_projectile`. -/
def GameStateQ.playing (gs : GameStateQ) : Bool :=
  gs.started && !gs.paused && !gs.intro

-- Constants from the source (`f32` values as exact rationals).
def TIME_STEP : ℚ := 1 / 60
def SCREEN_EDGE_VERTICAL : ℚ := 360
def PROJECTILE_TIME_LIMIT : ℚ := 3 / 10
def INTRO_TIME_LIMIT : ℚ := 6
def PLAYER_SIZE : Vec3Q := ⟨15, 16, 0⟩
def SIZE_SCALE : ℚ := 2
def PLAYER_SPEED : ℚ := 400
def PLAYER_STARTING_POSITION : Vec3Q := ⟨0, -300, 1⟩
def PROJECTILE_SIZE : Vec3Q := ⟨3, 6, 0⟩
def PROJECTILE_SPEED : ℚ := 400
def PLAYER_PROJECTILE_DIRECTION : Vec2Q := ⟨1 / 2, 1 / 2⟩
def ENEMY_INTRO_POSITION : Vec3Q := ⟨0, SCREEN_EDGE_VERTICAL + 20, 1⟩
def ENEMY_LINE_POSITION : Vec3Q := ⟨-400, 20, 1⟩
def ENEMY_COUNT : ℕ := 20
def ENEMY_GAP : ℚ := 20
def ENEMY_TIME : ℚ := 3

/-- The inline `direction` accumulator of `move_player`: starts at `0`,
`Left` subtracts `1`, `Right` adds `1`. -/
def direction (left_pressed right_pressed : Bool) : ℚ :=
  (if left_pressed then (0 : ℚ) - 1 else 0) + (if right_pressed then 1 else 0)

/-- System `move_player`: under the playing gate, the player's x translation
moves by `direction * PLAYER_SPEED * TIME_STEP`; no bounds clamping. -/
def move_player (gs : GameStateQ) (left_pressed right_pressed : Bool) (x : ℚ) : ℚ :=
  if gs.playing then
    x + direction left_pressed right_pressed * PLAYER_SPEED * TIME_STEP
  else
    x

/-- One tick's worth of input: game state plus the two held arrow keys. -/
structure MoveInput where
  gs : GameStateQ
  left_pressed : Bool
  right_pressed : Bool

/-- Iterated `move_player` over a sequence of per-tick inputs. -/
def move_player_run (inputs : List MoveInput) (x : ℚ) : ℚ :=
  inputs.foldl (fun acc i => move_player i.gs i.left_pressed i.right_pressed acc) x

/-- The per-tick x contribution of one input, as the spec states it. -/
def moveContribution (i : MoveInput) : ℚ :=
  if i.gs.playing then direction i.left_pressed i.right_pressed * PLAYER_SPEED * TIME_STEP
  else 0

/-- System `move_projectiles`: every projectile's y translation advances by
`velocity.y * TIME_STEP`; the system reads no `GameState`. -/
def move_projectiles (ps : List (TransformQ × Vec2Q)) : List (TransformQ × Vec2Q) :=
  ps.map fun pv =>
    ({ pv.1 with
        translation :=
          { pv.1.translation with y := pv.1.translation.y + pv.2.y * TIME_STEP } },
      pv.2)

/-- A projectile entity as seen by the collision and cleanup queries:
entity id plus transform. -/
structure ProjEntity where
  id : ℕ
  transform : TransformQ
deriving DecidableEq

/-- A `Collider`-tagged entity as seen by the collision query: entity id,
transform, and whether it also carries the `Enemy` tag
(`Option<&Enemy>.is_some()`). -/
structure ColliderEntity where
  id : ℕ
  transform : TransformQ
  isEnemy : Bool
deriving DecidableEq

/-- System `destroy_projectiles`: queue a despawn command for every
projectile whose y translation passed the top or bottom screen edge. -/
def destroy_projectiles (ps : List ProjEntity) : List ℕ :=
  (ps.filter fun p =>
      decide (p.transform.translation.y > SCREEN_EDGE_VERTICAL) ||
        decide (p.transform.translation.y < -SCREEN_EDGE_VERTICAL)).map
    (fun p => p.id)

/-- Applying queued despawn commands to a store of entity ids: every listed
id is removed; despawning an id that is not present is a no-op. -/
def applyDespawns (ds : List ℕ) (store : List ℕ) : List ℕ :=
  store.filter fun i => decide (i ∉ ds)

/-- Modelled from the spec: `bevy::sprite::collide_aabb::collide` is
third-party engine code not present under `src/`. The spec describes it as
an axis-aligned box overlap test "using each entity's transform translation
as center and transform scale as full extent", with exactly-touching boxes
counting as a collision. -/
def collide (aPos : Vec3Q) (aSize : Vec2Q) (bPos : Vec3Q) (bSize : Vec2Q) : Bool :=
  decide (aPos.x - aSize.x / 2 ≤ bPos.x + bSize.x / 2) &&
    decide (bPos.x - bSize.x / 2 ≤ aPos.x + aSize.x / 2) &&
    decide (aPos.y - aSize.y / 2 ≤ bPos.y + bSize.y / 2) &&
    decide (bPos.y - bSize.y / 2 ≤ aPos.y + aSize.y / 2)

/-- The condition under which the body of the collision handler runs for a
projectile/collider pair: the AABBs collide and the collider is an enemy. -/
def hitsEnemy (p : ProjEntity) (c : ColliderEntity) : Bool :=
  collide p.transform.translation p.transform.scale.truncate
      c.transform.translation c.transform.scale.truncate &&
    c.isEnemy

/-- The effects `check_for_collisions` queues during one run: death events
(point values), explosion spawn positions, and despawn commands, in the
order they were issued. Commands are deferred, so they do not influence the
queries while the system is still running. -/
structure CollisionEffects where
  deathEvents : List ℕ
  explosions : List Vec3Q
  despawns : List ℕ
deriving DecidableEq

/-- The body of the inner collider loop of `check_for_collisions` for one
projectile/collider pair: on an enemy hit, queue `EnemyDeathEvent(100)`, an
explosion spawn at the collider's translation, and despawns of the collider
and the projectile. -/
def collisionPairStep (p : ProjEntity) (c : ColliderEntity)
    (eff : CollisionEffects) : CollisionEffects :=
  if hitsEnemy p c then
    { deathEvents := eff.deathEvents ++ [100],
      explosions := eff.explosions ++ [c.transform.translation],
      despawns := eff.despawns ++ [c.id, p.id] }
  else
    eff

/-- System `check_for_collisions`: the two nested query loops, accumulating
queued effects. No `break`: every overlapping pair is processed. -/
def check_for_collisions (ps : List ProjEntity) (cs : List ColliderEntity) :
    CollisionEffects :=
  ps.foldl (fun eff p => cs.foldl (fun eff c => collisionPairStep p c eff) eff)
    ⟨[], [], []⟩

/-- The record of one projectile spawned by `shoot_projectile`: translation
is the player's current translation, scale is `PROJECTILE_SIZE * SIZE_SCALE`.
The source sets `Velocity(PLAYER_PROJECTILE_DIRECTION.normalize() * PROJECTILE_SPEED)`;
the normalized magnitude `400/√2` is irrational, so the velocity is kept in
the unevaluated form direction × speed, which determines it. -/
structure SpawnedProjectile where
  translation : Vec3Q
  scale : Vec3Q
  velocityDir : Vec2Q
  velocitySpeed : ℚ
deriving DecidableEq

/-- The projectile bundle spawned at the player's translation. -/
def spawnedProjectile (playerPos : Vec3Q) : SpawnedProjectile :=
  { translation := playerPos,
    scale := PROJECTILE_SIZE.smul SIZE_SCALE,
    velocityDir := PLAYER_PROJECTILE_DIRECTION,
    velocitySpeed := PROJECTILE_SPEED }

/-- Result of one run of `shoot_projectile`: the cooldown timer after the
run, the number of `ProjectileEvent`s sent, and the projectiles spawned. -/
structure ShootResult where
  timer : TimerQ
  fireEvents : ℕ
  spawned : List SpawnedProjectile
deriving DecidableEq

/-- System `shoot_projectile`: under the playing gate, while the fire key is
held, tick the cooldown; when it has finished, reset it, send one
`ProjectileEvent`, and spawn one projectile at the player's translation.
The timer is ticked only when the gate holds and the key is held. -/
def shoot_projectile (gs : GameStateQ) (spacePressed : Bool) (timer : TimerQ)
    (dt : ℚ) (playerPos : Vec3Q) : ShootResult :=
  if gs.playing then
    if spacePressed then
      let t := timer.tick dt
      if t.finished then
        { timer := t.reset, fireEvents := 1, spawned := [spawnedProjectile playerPos] }
      else
        { timer := t, fireEvents := 0, spawned := [] }
    else
      { timer := timer, fireEvents := 0, spawned := [] }
  else
    { timer := timer, fireEvents := 0, spawned := [] }

/-- Iterated `shoot_projectile` over a run of `n` fixed ticks with constant
input, returning the final timer and the total number of spawned
projectiles. -/
def shoot_projectile_run (gs : GameStateQ) (spacePressed : Bool)
    (playerPos : Vec3Q) : ℕ → TimerQ → TimerQ × ℕ
  | 0, t => (t, 0)
  | n + 1, t =>
    let out := shoot_projectile gs spacePressed t TIME_STEP playerPos
    let rest := shoot_projectile_run gs spacePressed playerPos n out.timer
    (rest.1, out.spawned.length + rest.2)

/-- System `update_player_score`: on a tick with pending `EnemyDeathEvent`s,
fold their point values into the score and set the score text to the new
score; on an empty queue, nothing happens. -/
def update_player_score (score : ℕ) (text : String) (events : List ℕ) :
    ℕ × String :=
  if events.isEmpty then
    (score, text)
  else
    let s := events.foldl (fun acc v => acc + v) score
    (s, toString s)

/-- System `play_enemy_death_sound`: the number of times the enemy-death
sound cue is triggered on one tick, given that tick's pending death events
(the queue is cleared after being read). -/
def play_enemy_death_sound (events : List ℕ) : ℕ :=
  if events.isEmpty then 0 else 1

/-- Iterated `update_player_score` over a sequence of per-tick death-event
queues, threading score and score text. -/
def update_player_score_run (st : ℕ × String) (ticks : List (List ℕ)) :
    ℕ × String :=
  ticks.foldl (fun acc evs => update_player_score acc.1 acc.2 evs) st

/-- System `start_game`: while the game has not started, a held Space or
Return key sets `started` and sends one `GameStartEvent`. Returns the new
game state and the number of events sent. -/
def start_game (gs : GameStateQ) (spacePressed returnPressed : Bool) :
    GameStateQ × ℕ :=
  if !gs.started then
    if spacePressed || returnPressed then
      ({ gs with started := true }, 1)
    else
      (gs, 0)
  else
    (gs, 0)

/-- Result of one run of `play_intro`: game state, intro timer, and the
`NewLevelEvent` payloads sent. -/
structure IntroResult where
  gs : GameStateQ
  timer : TimerQ
  levelEvents : List ℕ
deriving DecidableEq

/-- System `play_intro`: on a pending `GameStartEvent`, set `intro` and
reset the intro timer; then, if `intro` holds, tick the timer and on its
just-finished edge clear `intro` and send `NewLevelEvent(1)`. The timer is
ticked only when `intro` holds (the `&&` in the source short-circuits). -/
def play_intro (startEvents : ℕ) (gs : GameStateQ) (timer : TimerQ) (dt : ℚ) :
    IntroResult :=
  let gs1 := if startEvents ≠ 0 then { gs with intro := true } else gs
  let t1 := if startEvents ≠ 0 then timer.reset else timer
  if gs1.intro then
    if t1.tickJustFinished dt then
      { gs := { gs1 with intro := false }, timer := t1.tick dt, levelEvents := [1] }
    else
      { gs := gs1, timer := t1.tick dt, levelEvents := [] }
  else
    { gs := gs1, timer := t1, levelEvents := [] }

/-- The `EnemyTypes` enum. -/
inductive EnemyTypes where
  | GreenBug
deriving DecidableEq

/-- `EnemyData`: enemy type plus formation target position. -/
structure EnemyData where
  enemy_type : EnemyTypes
  end_position : Vec3Q
deriving DecidableEq

/-- `EnemyGroup`: member list plus the group's finished flag. -/
structure EnemyGroup where
  group : List EnemyData
  finished : Bool
deriving DecidableEq

/-- The `EnemySpawnState` resource. -/
structure EnemySpawnStateQ where
  current_group : ℕ
  groups : List EnemyGroup
deriving DecidableEq

/-- System `spawn_enemies`: on pending `NewLevelEvent`s, set the level from
the events, then build 2 fresh groups of `ENEMY_COUNT` enemies, each with a
target on the enemy line spaced by `ENEMY_GAP`, and reset the current-group
index to 0. -/
def spawn_enemies (levelEvents : List ℕ) (gs : GameStateQ)
    (ess : EnemySpawnStateQ) : GameStateQ × EnemySpawnStateQ :=
  if levelEvents.isEmpty then
    (gs, ess)
  else
    let gs' := levelEvents.foldl (fun acc l => { acc with level := l }) gs
    let newGroups := (List.range 2).map fun _ =>
      { group := (List.range ENEMY_COUNT).map fun (enemy_id : ℕ) =>
          { enemy_type := EnemyTypes.GreenBug,
            end_position := ENEMY_LINE_POSITION + ⟨(enemy_id : ℚ) * ENEMY_GAP, 0, 0⟩ },
        finished := false }
    (gs', { current_group := 0, groups := newGroups })

/-- One enemy entity spawned by `spawn_enemy_group`: transform data plus its
`EnemyGroupComponent(group, enemy_id)` tag. -/
structure SpawnedEnemy where
  translation : Vec3Q
  scale : Vec3Q
  groupId : ℕ
  enemyId : ℕ
deriving DecidableEq

/-- The entities spawned when a group is released: one per member, at the
intro position staggered by `enemy_id * ENEMY_GAP * SIZE_SCALE` vertically,
tagged with the group index and the member index. -/
def spawnGroupMembers (gIdx : ℕ) (g : EnemyGroup) : List SpawnedEnemy :=
  (List.range g.group.length).map fun enemy_id =>
    { translation := ENEMY_INTRO_POSITION + ⟨0, enemy_id * ENEMY_GAP * SIZE_SCALE, 0⟩,
      scale := PLAYER_SIZE.smul SIZE_SCALE,
      groupId := gIdx,
      enemyId := enemy_id }

/-- Record of one group release: which group, the spawned entities, and the
ambient time at which the release happened. -/
structure ReleaseRec where
  groupIdx : ℕ
  members : List SpawnedEnemy
  time : ℚ
deriving DecidableEq

/-- The state `spawn_enemy_group` runs against: the spawn state, its release
cooldown timer, and the ambient clock. -/
structure ChoreoState where
  ess : EnemySpawnStateQ
  timer : TimerQ
  now : ℚ
deriving DecidableEq

/-- System `spawn_enemy_group` for one frame of delta `dt`: if the current
group index already equals the group count, return early (the timer is not
ticked); otherwise tick the release timer and, when it has finished, spawn
every member of the current group, reset the timer and advance the index. -/
def spawn_enemy_group (s : ChoreoState) (dt : ℚ) :
    ChoreoState × Option ReleaseRec :=
  if s.ess.current_group = s.ess.groups.length then
    ({ s with now := s.now + dt }, none)
  else
    let t := s.timer.tick dt
    if t.finished then
      let g := (s.ess.groups[s.ess.current_group]?).getD ⟨[], false⟩
      ({ ess := { s.ess with current_group := s.ess.current_group + 1 },
         timer := t.reset,
         now := s.now + dt },
        some { groupIdx := s.ess.current_group,
               members := spawnGroupMembers s.ess.current_group g,
               time := s.now + dt })
    else
      ({ s with timer := t, now := s.now + dt }, none)

/-- Iterated `spawn_enemy_group` over a list of frame deltas, collecting the
log of group releases in order. -/
def spawn_enemy_group_run (s : ChoreoState) : List ℚ → ChoreoState × List ReleaseRec
  | [] => (s, [])
  | dt :: dts =>
    let step := spawn_enemy_group s dt
    let rest := spawn_enemy_group_run step.1 dts
    (rest.1, step.2.toList ++ rest.2)

/-- The `lerp` utility of the source. -/
def lerp (start finish amt : ℚ) : ℚ :=
  (1 - amt) * start + amt * finish

/-- The per-enemy target y of `intro_enemy_group_dance`:
`ENEMY_LINE_POSITION.y + group_id * ENEMY_GAP * SIZE_SCALE`. -/
def danceFinalY (group_id : ℕ) : ℚ :=
  ENEMY_LINE_POSITION.y + group_id * ENEMY_GAP * SIZE_SCALE

/-- The per-enemy target x of `intro_enemy_group_dance`:
`ENEMY_LINE_POSITION.x + enemy_id * ENEMY_GAP * SIZE_SCALE`. -/
def danceFinalX (enemy_id : ℕ) : ℚ :=
  ENEMY_LINE_POSITION.x + enemy_id * ENEMY_GAP * SIZE_SCALE

/-- One enemy entity as seen by the dance query: its transform and its
`EnemyGroupComponent` indices. -/
structure EnemyEntity where
  transform : TransformQ
  groupId : ℕ
  enemyId : ℕ
deriving DecidableEq

/-- Setting the finished flag of group `i` in place
(`enemy_spawn_state.groups[i].finished = true`). -/
def setGroupFinished : List EnemyGroup → ℕ → List EnemyGroup
  | [], _ => []
  | g :: gs, 0 => { g with finished := true } :: gs
  | g :: gs, n + 1 => g :: setGroupFinished gs n

/-- The loop body of `intro_enemy_group_dance` for one enemy: if the enemy's
group index is at most the current group index and its group is unfinished,
lerp both axes 10% toward the target; if the new position equals the target
exactly on both axes, mark the whole group finished. -/
def danceStep (ess : EnemySpawnStateQ) (e : EnemyEntity) :
    EnemySpawnStateQ × EnemyEntity :=
  if e.groupId ≤ ess.current_group &&
      !((ess.groups[e.groupId]?).getD ⟨[], false⟩).finished then
    let finalY := danceFinalY e.groupId
    let newY := lerp e.transform.translation.y finalY (1 / 10)
    let finalX := danceFinalX e.enemyId
    let newX := lerp e.transform.translation.x finalX (1 / 10)
    let e' := { e with transform :=
      { e.transform with translation :=
        { e.transform.translation with x := newX, y := newY } } }
    if newY = finalY ∧ newX = finalX then
      ({ ess with groups := setGroupFinished ess.groups e.groupId }, e')
    else
      (ess, e')
  else
    (ess, e)

/-- System `intro_enemy_group_dance`: the query loop over all enemies,
threading the spawn state (a group marked finished mid-loop is seen as
finished by the remaining enemies of that tick). -/
def intro_enemy_group_dance (ess : EnemySpawnStateQ) :
    List EnemyEntity → EnemySpawnStateQ × List EnemyEntity
  | [] => (ess, [])
  | e :: es =>
    let step := danceStep ess e
    let rest := intro_enemy_group_dance step.1 es
    (rest.1, step.2 :: rest.2)

/-- The systems of the fixed-timestep set in `main`. -/
inductive Sys where
  | check_for_collisions
  | move_player
  | move_projectiles
  | destroy_projectiles
  | play_projectile_sound
  | update_player_score
  | play_enemy_death_sound
  | animate_explosion
  | shoot_projectile
deriving DecidableEq

/-- The explicit `.before(...)` ordering constraints declared on the
fixed-timestep system set in `main`. -/
def beforeEdges : List (Sys × Sys) :=
  [(Sys.move_player, Sys.check_for_collisions),
   (Sys.move_projectiles, Sys.check_for_collisions),
   (Sys.destroy_projectiles, Sys.check_for_collisions),
   (Sys.play_projectile_sound, Sys.check_for_collisions),
   (Sys.update_player_score, Sys.play_enemy_death_sound),
   (Sys.play_enemy_death_sound, Sys.check_for_collisions),
   (Sys.shoot_projectile, Sys.check_for_collisions)]

/-- A strict total position for each system of the fixed-timestep set,
compatible with every declared `.before` edge; used to exhibit a concrete
schedule. -/
def sysIdx : Sys → ℕ
  | Sys.move_player => 0
  | Sys.move_projectiles => 1
  | Sys.destroy_projectiles => 2
  | Sys.play_projectile_sound => 3
  | Sys.update_player_score => 4
  | Sys.play_enemy_death_sound => 5
  | Sys.shoot_projectile => 6
  | Sys.animate_explosion => 7
  | Sys.check_for_collisions => 8

/-- A concrete strict execution order on the fixed-timestep systems. -/
def sysOrder (a b : Sys) : Prop := sysIdx a < sysIdx b

instance : DecidableRel sysOrder := fun a b => Nat.decLt (sysIdx a) (sysIdx b)

-- Helper lemmas

lemma move_player_contribution (gs : GameStateQ) (l r : Bool) (x : ℚ) :
    move_player gs l r x = x + moveContribution ⟨gs, l, r⟩ := by
  unfold move_player moveContribution
  by_cases h : gs.playing = true
  · simp [h]
  · simp [h]

lemma move_player_run_eq (inputs : List MoveInput) :
    ∀ x : ℚ, move_player_run inputs x = x + (inputs.map moveContribution).sum := by
  induction inputs with
  | nil => intro x; simp [move_player_run]
  | cons i is ih =>
    intro x
    show move_player_run is (move_player i.gs i.left_pressed i.right_pressed x) = _
    rw [ih, move_player_contribution]
    simp [add_assoc]

lemma foldl_add_eq (l : List ℕ) : ∀ s : ℕ, l.foldl (fun acc v => acc + v) s = s + l.sum := by
  induction l with
  | nil => intro s; simp
  | cons x xs ih => intro s; simp only [List.foldl_cons, ih, List.sum_cons]; ring

lemma update_player_score_fst (score : ℕ) (text : String) (events : List ℕ) :
    (update_player_score score text events).1 = score + events.sum := by
  unfold update_player_score
  by_cases h : events.isEmpty
  · simp [h, List.isEmpty_iff.mp h]
  · simp [h, foldl_add_eq]

lemma update_player_score_run_fst (ticks : List (List ℕ)) :
    ∀ st : ℕ × String, (update_player_score_run st ticks).1 =
      st.1 + (ticks.map List.sum).sum := by
  induction ticks with
  | nil => intro st; simp [update_player_score_run]
  | cons evs ts ih =>
    intro st
    show (update_player_score_run (update_player_score st.1 st.2 evs) ts).1 = _
    rw [ih, update_player_score_fst]
    simp [add_assoc]

/-- C6: each fixed tick, under the gate `started && !paused && !intro`, the
player's x position changes by `direction * PLAYER_SPEED * TIME_STEP` with
direction -1/0/+1 from the held arrow keys (both or neither cancel to 0), no
clamping; over a run the final x is the start plus the sum of the per-tick
contributions, and with no keys held it is unchanged. -/
theorem C6_move_player :
    (∀ (gs : GameStateQ) (l r : Bool) (x : ℚ),
        move_player gs l r x =
          x + (if gs.playing then direction l r * PLAYER_SPEED * TIME_STEP else 0)) ∧
    (direction false false = 0 ∧ direction true true = 0 ∧
      direction true false = -1 ∧ direction false true = 1) ∧
    (∀ (inputs : List MoveInput) (x : ℚ),
        move_player_run inputs x = x + (inputs.map moveContribution).sum) ∧
    (∀ (gss : List GameStateQ) (x : ℚ),
        move_player_run (gss.map fun gs => ⟨gs, false, false⟩) x = x) := by
  refine ⟨?_, ?_, move_player_run_eq, ?_⟩
  · intro gs l r x
    rw [move_player_contribution]
    unfold moveContribution
    by_cases h : gs.playing = true <;> simp [h]
  · refine ⟨by norm_num [direction], by norm_num [direction],
      by norm_num [direction], by norm_num [direction]⟩
  · intro gss x
    rw [move_player_run_eq]
    have hz : ∀ gs : GameStateQ, moveContribution ⟨gs, false, false⟩ = 0 := by
      intro gs
      unfold moveContribution
      by_cases h : gs.playing = true <;> simp [h, direction]
    have : (gss.map fun gs => moveContribution ⟨gs, false, false⟩).sum = 0 := by
      rw [List.sum_eq_zero]
      intro y hy
      obtain ⟨gs, _, rfl⟩ := List.mem_map.mp hy
      exact hz gs
    rw [List.map_map]
    simpa using this

/-- C9: `move_projectiles` advances every projectile's y translation by
`velocity.y * TIME_STEP` and leaves x (and z, scale, velocity) unchanged;
the system reads no `GameState`, so the update happens on every tick whether
or not the game is started, paused or in the intro. -/
theorem C9_move_projectiles :
    (∀ ps : List (TransformQ × Vec2Q), (move_projectiles ps).length = ps.length) ∧
    (∀ (ps : List (TransformQ × Vec2Q)) (i : ℕ) (t : TransformQ) (v : Vec2Q),
        ps[i]? = some (t, v) →
        (move_projectiles ps)[i]? =
          some ({ t with translation :=
            { t.translation with y := t.translation.y + v.y * TIME_STEP } }, v)) := by
  constructor
  · intro ps; simp [move_projectiles]
  · intro ps i t v h
    unfold move_projectiles
    rw [List.getElem?_map, h]
    rfl

/-- Witness for `C9_move_projectiles` at a concrete projectile list. -/
theorem C9_move_projectiles_witness :
    (move_projectiles [(⟨⟨0, 20, 1⟩, ⟨6, 12, 0⟩⟩, ⟨200, -200⟩)])[0]? =
      some (⟨⟨0, 20 + (-200 : ℚ) * TIME_STEP, 1⟩, ⟨6, 12, 0⟩⟩, ⟨200, -200⟩) :=
  C9_move_projectiles.2 [(⟨⟨0, 20, 1⟩, ⟨6, 12, 0⟩⟩, ⟨200, -200⟩)] 0
    ⟨⟨0, 20, 1⟩, ⟨6, 12, 0⟩⟩ ⟨200, -200⟩ rfl

/-- C7: on a tick whose death-event queue is non-empty, the score rises by
exactly the sum of the pending point values, the score text is set to the
new score, and the death sound cue triggers exactly once for the tick; over
any sequence of ticks the final score is the initial score plus the exact
total of all delivered point values. -/
theorem C7_update_player_score :
    (∀ (score : ℕ) (text : String) (events : List ℕ), events ≠ [] →
        update_player_score score text events =
          (score + events.sum, toString (score + events.sum)) ∧
        play_enemy_death_sound events = 1) ∧
    (∀ (st : ℕ × String) (ticks : List (List ℕ)),
        (update_player_score_run st ticks).1 =
          st.1 + (ticks.map List.sum).sum) := by
  constructor
  · intro score text events h
    have hne : events.isEmpty = false := by
      simpa [List.isEmpty_iff] using h
    constructor
    · unfold update_player_score
      simp [hne, foldl_add_eq]
    · unfold play_enemy_death_sound
      simp [hne]
  · intro st ticks
    exact update_player_score_run_fst ticks st

/-- Witness for `C7_update_player_score`: two death signals worth 100 each
on one tick yield score 200, text set accordingly, one sound trigger. -/
theorem C7_update_player_score_witness :
    update_player_score 0 (toString (0 : ℕ)) [100, 100] =
      (200, toString (200 : ℕ)) ∧
    play_enemy_death_sound [100, 100] = 1 := by
  have h := C7_update_player_score.1 0 (toString (0 : ℕ)) [100, 100] (by decide)
  simpa using h

/-- C8: a fire-or-confirm key press while not started sets `started` and
sends one game-start signal; the reacting system sets `intro` and resets the
intro timer; the intro timer's completion edge (observed exactly once)
clears `intro` and sends a level-start signal with level 1; afterwards, with
`intro` cleared and no pending start events, nothing further happens. -/
theorem C8_game_start_machine :
    (∀ (gs : GameStateQ) (sp rp : Bool),
        gs.started = false → (sp || rp) = true →
        start_game gs sp rp = ({ gs with started := true }, 1)) ∧
    (∀ (n : ℕ) (gs : GameStateQ) (timer : TimerQ) (dt : ℚ),
        n ≠ 0 → timer.duration = INTRO_TIME_LIMIT → 0 ≤ dt → dt < INTRO_TIME_LIMIT →
        (play_intro n gs timer dt).gs.intro = true ∧
        (play_intro n gs timer dt).timer = ⟨INTRO_TIME_LIMIT, dt⟩ ∧
        (play_intro n gs timer dt).levelEvents = []) ∧
    (∀ (gs : GameStateQ) (timer : TimerQ) (dt : ℚ),
        gs.intro = true → timer.elapsed < timer.duration →
        timer.duration ≤ timer.elapsed + dt →
        (play_intro 0 gs timer dt).gs.intro = false ∧
        (play_intro 0 gs timer dt).levelEvents = [1]) ∧
    (∀ (gs : GameStateQ) (timer : TimerQ) (dt : ℚ),
        gs.intro = false →
        play_intro 0 gs timer dt = ⟨gs, timer, []⟩) := by
  refine ⟨?_, ?_, ?_, ?_⟩
  · intro gs sp rp hs hk
    unfold start_game
    simp [hs, hk]
  · intro n gs timer dt hn hdur h0 hlt
    have hjf : (timer.reset).tickJustFinished dt = false := by
      unfold TimerQ.tickJustFinished TimerQ.reset
      simp only [decide_eq_true_eq, Bool.and_eq_false_iff, decide_eq_false_iff_not, not_le]
      right
      simpa [hdur] using hlt
    have htick : (timer.reset).tick dt = (⟨INTRO_TIME_LIMIT, dt⟩ : TimerQ) := by
      unfold TimerQ.tick TimerQ.reset
      simp only [hdur, zero_add]
      rw [min_eq_left (le_of_lt hlt)]
    unfold play_intro
    simp [hn, hjf, htick]
  · intro gs timer dt hintro hlt hge
    have hjf : timer.tickJustFinished dt = true := by
      unfold TimerQ.tickJustFinished
      simp [hlt, hge]
    unfold play_intro
    simp [hintro, hjf]
  · intro gs timer dt hintro
    unfold play_intro
    simp [hintro]

/-- Witness for `C8_game_start_machine`: start from the initial state, press
Space, play the intro for one frame, then observe the completion edge. -/
theorem C8_game_start_machine_witness :
    start_game ⟨false, false, false, 1⟩ true false = (⟨true, false, false, 1⟩, 1) ∧
    (play_intro 1 ⟨true, false, false, 1⟩ ⟨INTRO_TIME_LIMIT, 3⟩ TIME_STEP).gs.intro = true ∧
    (play_intro 1 ⟨true, false, false, 1⟩ ⟨INTRO_TIME_LIMIT, 3⟩ TIME_STEP).levelEvents = [] ∧
    (play_intro 0 ⟨true, false, true, 1⟩ ⟨INTRO_TIME_LIMIT, 359 / 60⟩ TIME_STEP).gs.intro = false ∧
    (play_intro 0 ⟨true, false, true, 1⟩ ⟨INTRO_TIME_LIMIT, 359 / 60⟩ TIME_STEP).levelEvents = [1] ∧
    play_intro 0 ⟨true, false, false, 1⟩ ⟨INTRO_TIME_LIMIT, 6⟩ TIME_STEP =
      ⟨⟨true, false, false, 1⟩, ⟨INTRO_TIME_LIMIT, 6⟩, []⟩ := by
  have h1 := C8_game_start_machine.1 ⟨false, false, false, 1⟩ true false rfl rfl
  have h2 := C8_game_start_machine.2.1 1 ⟨true, false, false, 1⟩ ⟨INTRO_TIME_LIMIT, 3⟩
    TIME_STEP (by decide) rfl (by norm_num [TIME_STEP]) (by norm_num [TIME_STEP, INTRO_TIME_LIMIT])
  have h3 := C8_game_start_machine.2.2.1 ⟨true, false, true, 1⟩ ⟨INTRO_TIME_LIMIT, 359 / 60⟩
    TIME_STEP rfl (by norm_num [INTRO_TIME_LIMIT]) (by norm_num [INTRO_TIME_LIMIT, TIME_STEP])
  have h4 := C8_game_start_machine.2.2.2 ⟨true, false, false, 1⟩ ⟨INTRO_TIME_LIMIT, 6⟩
    TIME_STEP rfl
  exact ⟨h1, h2.1, h2.2.2, h3.1, h3.2, h4⟩

/-- The enemy-tagged colliders whose AABB overlaps the projectile's:
the pairs for which the collision handler body runs. -/
def enemyHits (p : ProjEntity) (cs : List ColliderEntity) : List ColliderEntity :=
  cs.filter fun c => hitsEnemy p c

lemma collider_fold_eq (cs : List ColliderEntity) :
    ∀ (p : ProjEntity) (eff : CollisionEffects),
      cs.foldl (fun eff c => collisionPairStep p c eff) eff =
        { deathEvents := eff.deathEvents ++ (enemyHits p cs).map fun _ => 100,
          explosions :=
            eff.explosions ++ (enemyHits p cs).map fun c => c.transform.translation,
          despawns := eff.despawns ++ (enemyHits p cs).flatMap fun c => [c.id, p.id] } := by
  induction cs with
  | nil => intro p eff; simp [enemyHits]
  | cons c cs ih =>
    intro p eff
    by_cases h : hitsEnemy p c = true
    · rw [List.foldl_cons]
      show cs.foldl (fun eff c => collisionPairStep p c eff) (collisionPairStep p c eff) = _
      rw [ih p (collisionPairStep p c eff)]
      unfold collisionPairStep
      rw [if_pos h]
      simp [enemyHits, List.filter_cons_of_pos h]
    · rw [List.foldl_cons]
      show cs.foldl (fun eff c => collisionPairStep p c eff) (collisionPairStep p c eff) = _
      rw [ih p (collisionPairStep p c eff)]
      unfold collisionPairStep
      rw [if_neg h]
      simp [enemyHits, List.filter_cons_of_neg h]

lemma check_for_collisions_eq (ps : List ProjEntity) (cs : List ColliderEntity) :
    check_for_collisions ps cs =
      { deathEvents := (ps.flatMap fun p => enemyHits p cs).map fun _ => 100,
        explosions :=
          (ps.flatMap fun p => enemyHits p cs).map fun c => c.transform.translation,
        despawns := ps.flatMap fun p => (enemyHits p cs).flatMap fun c => [c.id, p.id] } := by
  have key : ∀ (ps : List ProjEntity) (eff : CollisionEffects),
      ps.foldl (fun eff p => cs.foldl (fun eff c => collisionPairStep p c eff) eff) eff =
        { deathEvents :=
            eff.deathEvents ++ (ps.flatMap fun p => enemyHits p cs).map fun _ => 100,
          explosions := eff.explosions ++
            (ps.flatMap fun p => enemyHits p cs).map fun c => c.transform.translation,
          despawns := eff.despawns ++
            ps.flatMap fun p => (enemyHits p cs).flatMap fun c => [c.id, p.id] } := by
    intro ps
    induction ps with
    | nil => intro eff; simp
    | cons p ps ih =>
      intro eff
      rw [List.foldl_cons, collider_fold_eq cs p eff, ih]
      simp
  unfold check_for_collisions
  rw [key ps ⟨[], [], []⟩]
  simp

lemma not_mem_applyDespawns {a : ℕ} {ds store : List ℕ} (h : a ∈ ds) :
    a ∉ applyDespawns ds store := by
  intro hmem
  unfold applyDespawns at hmem
  have := List.of_mem_filter hmem
  simp only [decide_eq_true_eq] at this
  exact this h

/-- C1 (amended): `check_for_collisions` queues one `EnemyDeathEvent(100)`,
one explosion spawn at the enemy's last position and despawn commands for
the enemy and the projectile per overlapping (projectile, enemy-collider)
pair; when a projectile overlaps exactly one enemy collider that is exactly
one death signal, and both entities are gone from the store once the queued
despawns apply — but despawns are deferred, so a projectile overlapping
several enemy colliders in the same tick resolves against every match, not
only the first. -/
theorem C1_collision_per_overlap :
    (∀ (ps : List ProjEntity) (cs : List ColliderEntity),
        (check_for_collisions ps cs).deathEvents =
          (ps.flatMap fun p => enemyHits p cs).map (fun _ => 100) ∧
        (check_for_collisions ps cs).explosions =
          (ps.flatMap fun p => enemyHits p cs).map (fun c => c.transform.translation) ∧
        (check_for_collisions ps cs).despawns =
          ps.flatMap fun p => (enemyHits p cs).flatMap fun c => [c.id, p.id]) ∧
    (∀ (p : ProjEntity) (cs : List ColliderEntity) (c : ColliderEntity),
        enemyHits p cs = [c] →
        check_for_collisions [p] cs =
          ⟨[100], [c.transform.translation], [c.id, p.id]⟩) ∧
    (∀ (p : ProjEntity) (cs : List ColliderEntity) (store : List ℕ),
        enemyHits p cs ≠ [] →
        p.id ∉ applyDespawns (check_for_collisions [p] cs).despawns store) ∧
    (∀ (p : ProjEntity) (cs : List ColliderEntity) (c : ColliderEntity) (store : List ℕ),
        c ∈ enemyHits p cs →
        c.id ∉ applyDespawns (check_for_collisions [p] cs).despawns store) := by
  refine ⟨?_, ?_, ?_, ?_⟩
  · intro ps cs
    rw [check_for_collisions_eq]
    exact ⟨rfl, rfl, rfl⟩
  · intro p cs c h
    rw [check_for_collisions_eq]
    simp [h]
  · intro p cs store h
    apply not_mem_applyDespawns
    rw [check_for_collisions_eq]
    obtain ⟨c, hc⟩ := List.exists_mem_of_ne_nil _ h
    simp only [List.flatMap_cons, List.flatMap_nil, List.append_nil]
    exact List.mem_flatMap.mpr ⟨c, hc, by simp⟩
  · intro p cs c store h
    apply not_mem_applyDespawns
    rw [check_for_collisions_eq]
    simp only [List.flatMap_cons, List.flatMap_nil, List.append_nil]
    exact List.mem_flatMap.mpr ⟨c, h, by simp⟩

/-- A projectile sitting at the origin (scale 6×12, as fired projectiles). -/
def cexProj : ProjEntity := ⟨0, ⟨⟨0, 0, 1⟩, ⟨6, 12, 0⟩⟩⟩

/-- An enemy collider overlapping `cexProj` (scale 30×32, as spawned enemies). -/
def cexEnemy1 : ColliderEntity := ⟨1, ⟨⟨0, 0, 1⟩, ⟨30, 32, 0⟩⟩, true⟩

/-- A second enemy collider overlapping `cexProj` in the same tick. -/
def cexEnemy2 : ColliderEntity := ⟨2, ⟨⟨0, 0, 1⟩, ⟨30, 32, 0⟩⟩, true⟩

lemma cexHit1 : hitsEnemy cexProj cexEnemy1 = true := by
  simp only [hitsEnemy, collide, cexProj, cexEnemy1, Vec3Q.truncate, Bool.and_eq_true,
    decide_eq_true_eq, Bool.and_true]
  norm_num

lemma cexHit2 : hitsEnemy cexProj cexEnemy2 = true := by
  simp only [hitsEnemy, collide, cexProj, cexEnemy2, Vec3Q.truncate, Bool.and_eq_true,
    decide_eq_true_eq, Bool.and_true]
  norm_num

lemma cexHitsPair : enemyHits cexProj [cexEnemy1, cexEnemy2] = [cexEnemy1, cexEnemy2] := by
  simp [enemyHits, cexHit1, cexHit2]

lemma cexHitsSingle : enemyHits cexProj [cexEnemy1] = [cexEnemy1] := by
  simp [enemyHits, cexHit1]

/-- Counterexample to C1 as stated: a projectile overlapping two enemy
colliders in the same tick emits a death signal for each of them (and queues
the projectile despawn twice) — the second overlap is not moot, because the
despawn commands are deferred until after the system ran. -/
theorem C1_collision_cex :
    hitsEnemy cexProj cexEnemy1 = true ∧
    hitsEnemy cexProj cexEnemy2 = true ∧
    (check_for_collisions [cexProj] [cexEnemy1, cexEnemy2]).deathEvents = [100, 100] ∧
    (check_for_collisions [cexProj] [cexEnemy1, cexEnemy2]).despawns = [1, 0, 2, 0] := by
  refine ⟨cexHit1, cexHit2, ?_, ?_⟩
  · rw [check_for_collisions_eq]
    simp only [List.flatMap_cons, List.flatMap_nil, List.append_nil]
    rw [cexHitsPair]
    rfl
  · rw [check_for_collisions_eq]
    simp only [List.flatMap_cons, List.flatMap_nil, List.append_nil]
    rw [cexHitsPair]
    rfl

/-- Witness for `C1_collision_per_overlap`: against a single overlapping
enemy there is exactly one death signal of value 100, one explosion at the
enemy's position, and both entities are despawned. -/
theorem C1_collision_per_overlap_witness :
    check_for_collisions [cexProj] [cexEnemy1] =
      ⟨[100], [⟨0, 0, 1⟩], [1, 0]⟩ ∧
    (0 : ℕ) ∉ applyDespawns (check_for_collisions [cexProj] [cexEnemy1]).despawns [0, 1, 5] ∧
    (1 : ℕ) ∉ applyDespawns (check_for_collisions [cexProj] [cexEnemy1]).despawns [0, 1, 5] := by
  refine ⟨?_, ?_, ?_⟩
  · exact C1_collision_per_overlap.2.1 cexProj [cexEnemy1] cexEnemy1 cexHitsSingle
  · exact C1_collision_per_overlap.2.2.1 cexProj [cexEnemy1] [0, 1, 5]
      (by rw [cexHitsSingle]; exact List.cons_ne_nil _ _)
  · exact C1_collision_per_overlap.2.2.2 cexProj [cexEnemy1] cexEnemy1 [0, 1, 5]
      (by rw [cexHitsSingle]; exact List.mem_singleton_self _)

/-- C10: a projectile overlapping only non-enemy colliders (in particular
the player, whose AABB a newly fired projectile overlaps since it spawns at
the player's translation) produces no death signal, no despawn and no
explosion — the collision system leaves everything unchanged. -/
theorem C10_non_enemy_overlap_no_effect :
    (∀ (ps : List ProjEntity) (cs : List ColliderEntity),
        (∀ c ∈ cs, c.isEnemy = false) →
        check_for_collisions ps cs = ⟨[], [], []⟩) ∧
    (∀ (pos : Vec3Q) (pid cid : ℕ),
        collide (spawnedProjectile pos).translation (spawnedProjectile pos).scale.truncate
            pos (PLAYER_SIZE.smul SIZE_SCALE).truncate = true ∧
        check_for_collisions
            [⟨pid, ⟨(spawnedProjectile pos).translation, (spawnedProjectile pos).scale⟩⟩]
            [⟨cid, ⟨pos, PLAYER_SIZE.smul SIZE_SCALE⟩, false⟩] = ⟨[], [], []⟩) := by
  have hnil : ∀ (cs : List ColliderEntity), (∀ c ∈ cs, c.isEnemy = false) →
      ∀ p : ProjEntity, enemyHits p cs = [] := by
    intro cs hcs p
    unfold enemyHits
    rw [List.filter_eq_nil_iff]
    intro c hc
    unfold hitsEnemy
    simp [hcs c hc]
  constructor
  · intro ps cs hcs
    rw [check_for_collisions_eq]
    have hfun : (fun p : ProjEntity => enemyHits p cs) =
        fun _ => ([] : List ColliderEntity) :=
      funext fun p => hnil cs hcs p
    have hfun2 : (fun p : ProjEntity => (enemyHits p cs).flatMap fun c => [c.id, p.id]) =
        fun _ => ([] : List ℕ) :=
      funext fun p => by rw [hnil cs hcs p]; rfl
    rw [hfun, hfun2]
    have h3 : ∀ {α : Type} (l : List α), l.flatMap (fun _ => ([] : List ColliderEntity)) = [] :=
      fun l => List.flatMap_eq_nil_iff.mpr (by intro x _; rfl)
    have h4 : ∀ {α : Type} (l : List α), l.flatMap (fun _ => ([] : List ℕ)) = [] :=
      fun l => List.flatMap_eq_nil_iff.mpr (by intro x _; rfl)
    rw [h3, h4]
    rfl
  · intro pos pid cid
    constructor
    · unfold collide spawnedProjectile Vec3Q.truncate Vec3Q.smul
      simp only [PROJECTILE_SIZE, PLAYER_SIZE, SIZE_SCALE, Bool.and_eq_true,
        decide_eq_true_eq]
      norm_num
      refine ⟨⟨⟨by linarith, by linarith⟩, by linarith⟩, by linarith⟩
    · rw [check_for_collisions_eq]
      have h : ∀ c ∈ [(⟨cid, ⟨pos, PLAYER_SIZE.smul SIZE_SCALE⟩, false⟩ : ColliderEntity)],
          c.isEnemy = false := by
        intro c hc
        simp only [List.mem_singleton] at hc
        rw [hc]
      have := hnil _ h ⟨pid, ⟨(spawnedProjectile pos).translation, (spawnedProjectile pos).scale⟩⟩
      simp [this]

/-- Witness for `C10_non_enemy_overlap_no_effect`: the player collider at
the starting position is overlapped by a projectile fired there, yet the
collision system queues nothing. -/
theorem C10_non_enemy_overlap_witness :
    check_for_collisions [⟨3, ⟨PLAYER_STARTING_POSITION, ⟨6, 12, 0⟩⟩⟩]
        [⟨4, ⟨PLAYER_STARTING_POSITION, ⟨30, 32, 0⟩⟩, false⟩] = ⟨[], [], []⟩ ∧
    collide (spawnedProjectile PLAYER_STARTING_POSITION).translation
        (spawnedProjectile PLAYER_STARTING_POSITION).scale.truncate
        PLAYER_STARTING_POSITION (PLAYER_SIZE.smul SIZE_SCALE).truncate = true := by
  constructor
  · exact C10_non_enemy_overlap_no_effect.1 _ _ (by decide)
  · exact (C10_non_enemy_overlap_no_effect.2 PLAYER_STARTING_POSITION 3 4).1

/-- Counterexample to C3 as stated: the fixed-timestep set declares cleanup
(`destroy_projectiles`) to run before collision, and declares no constraint
placing collision before cleanup — the claimed "collision before cleanup"
order contradicts the code's explicit `.before` edge. -/
theorem C3_ordering_cex :
    (Sys.destroy_projectiles, Sys.check_for_collisions) ∈ beforeEdges ∧
    (Sys.check_for_collisions, Sys.destroy_projectiles) ∉ beforeEdges := by
  decide

/-- C3 (amended): in any strict execution order respecting the declared
`.before` edges, movement, firing, cleanup and the score/sound reactions all
run before collision — in particular cleanup runs before collision, not
after it, and the score update runs before the death sound; despawning is
idempotent and despawning an absent id is a no-op, and a projectile beyond
the vertical bound when cleanup queries it is despawned, hence absent from
the next tick's query regardless of the collision outcome. -/
theorem C3_tick_ordering :
    (∀ r : Sys → Sys → Prop,
        (∀ e ∈ beforeEdges, r e.1 e.2) →
        (∀ a b c : Sys, r a b → r b c → r a c) →
        (∀ a : Sys, ¬ r a a) →
        r Sys.destroy_projectiles Sys.check_for_collisions ∧
        ¬ r Sys.check_for_collisions Sys.destroy_projectiles ∧
        r Sys.move_player Sys.check_for_collisions ∧
        r Sys.move_projectiles Sys.check_for_collisions ∧
        r Sys.shoot_projectile Sys.check_for_collisions ∧
        r Sys.update_player_score Sys.play_enemy_death_sound ∧
        r Sys.play_enemy_death_sound Sys.check_for_collisions) ∧
    (∀ (store : List ProjEntity) (p : ProjEntity),
        p ∈ store →
        (SCREEN_EDGE_VERTICAL < p.transform.translation.y ∨
          p.transform.translation.y < -SCREEN_EDGE_VERTICAL) →
        p.id ∉ applyDespawns (destroy_projectiles store) (store.map ProjEntity.id)) ∧
    (∀ ds store : List ℕ,
        applyDespawns ds (applyDespawns ds store) = applyDespawns ds store) ∧
    (∀ ds store : List ℕ, (∀ d ∈ ds, d ∉ store) → applyDespawns ds store = store) := by
  refine ⟨?_, ?_, ?_, ?_⟩
  · intro r hedges htrans hirr
    have hdc : r Sys.destroy_projectiles Sys.check_for_collisions :=
      hedges (Sys.destroy_projectiles, Sys.check_for_collisions) (by decide)
    refine ⟨hdc, ?_, ?_, ?_, ?_, ?_, ?_⟩
    · intro hcd
      exact hirr Sys.destroy_projectiles (htrans _ _ _ hdc hcd)
    · exact hedges (Sys.move_player, Sys.check_for_collisions) (by decide)
    · exact hedges (Sys.move_projectiles, Sys.check_for_collisions) (by decide)
    · exact hedges (Sys.shoot_projectile, Sys.check_for_collisions) (by decide)
    · exact hedges (Sys.update_player_score, Sys.play_enemy_death_sound) (by decide)
    · exact hedges (Sys.play_enemy_death_sound, Sys.check_for_collisions) (by decide)
  · intro store p hmem hoob
    apply not_mem_applyDespawns
    unfold destroy_projectiles
    apply List.mem_map_of_mem
    apply List.mem_filter.mpr
    refine ⟨hmem, ?_⟩
    rcases hoob with h | h
    · simp [h]
    · simp [h]
  · intro ds store
    unfold applyDespawns
    rw [List.filter_filter]
    simp
  · intro ds store h
    unfold applyDespawns
    rw [List.filter_eq_self]
    intro a ha
    simp only [decide_eq_true_eq]
    intro hads
    exact h a hads ha

/-- An out-of-bounds projectile used to witness the cleanup behavior. -/
def oobProj : ProjEntity := ⟨5, ⟨⟨0, 400, 1⟩, ⟨6, 12, 0⟩⟩⟩

/-- Witness for `C3_tick_ordering`: the concrete schedule `sysOrder`
satisfies every declared edge, places cleanup before collision, and a
projectile at y = 400 is despawned by cleanup. -/
theorem C3_tick_ordering_witness :
    sysOrder Sys.destroy_projectiles Sys.check_for_collisions ∧
    ¬ sysOrder Sys.check_for_collisions Sys.destroy_projectiles ∧
    (5 : ℕ) ∉ applyDespawns (destroy_projectiles [oobProj]) ([oobProj].map ProjEntity.id) ∧
    applyDespawns [5] [1, 2] = [1, 2] := by
  have h := C3_tick_ordering.1 sysOrder (by decide)
    (fun a b c hab hbc => Nat.lt_trans hab hbc) (fun a => Nat.lt_irrefl _)
  have h2 := C3_tick_ordering.2.1 [oobProj] oobProj (List.mem_singleton_self _)
    (Or.inl (by norm_num [oobProj, SCREEN_EDGE_VERTICAL]))
  have h4 := C3_tick_ordering.2.2.2 [5] [1, 2] (by decide)
  exact ⟨h.1, h.2.1, h2, h4⟩

lemma setGroupFinished_getElem? (gs : List EnemyGroup) :
    ∀ (i : ℕ) (g : EnemyGroup), gs[i]? = some g →
      (setGroupFinished gs i)[i]? = some { g with finished := true } := by
  induction gs with
  | nil => intro i g h; simp at h
  | cons a as ih =>
    intro i g h
    cases i with
    | zero =>
      simp only [List.getElem?_cons_zero, Option.some.injEq] at h
      subst h
      simp [setGroupFinished]
    | succ n =>
      simp only [List.getElem?_cons_succ] at h
      show (a :: setGroupFinished as n)[n + 1]? = _
      simpa using ih n g h

lemma dance_length (es : List EnemyEntity) :
    ∀ ess, (intro_enemy_group_dance ess es).2.length = es.length := by
  induction es with
  | nil => intro ess; rfl
  | cons e es ih =>
    intro ess
    show ((intro_enemy_group_dance (danceStep ess e).1 es).1,
      (danceStep ess e).2 :: (intro_enemy_group_dance (danceStep ess e).1 es).2).2.length = _
    simp [ih]

lemma danceStep_eq (ess : EnemySpawnStateQ) (e : EnemyEntity) (g : EnemyGroup)
    (h1 : e.groupId ≤ ess.current_group) (h2 : ess.groups[e.groupId]? = some g)
    (h3 : g.finished = false) :
    danceStep ess e =
      (if lerp e.transform.translation.y (danceFinalY e.groupId) (1 / 10) =
            danceFinalY e.groupId ∧
          lerp e.transform.translation.x (danceFinalX e.enemyId) (1 / 10) =
            danceFinalX e.enemyId
        then { ess with groups := setGroupFinished ess.groups e.groupId }
        else ess,
       { e with transform := { e.transform with translation :=
          { e.transform.translation with
            x := lerp e.transform.translation.x (danceFinalX e.enemyId) (1 / 10),
            y := lerp e.transform.translation.y (danceFinalY e.groupId) (1 / 10) } } }) := by
  unfold danceStep
  rw [h2]
  simp only [Option.getD_some, h3, Bool.not_false, Bool.and_true, decide_eq_true_eq]
  rw [if_pos h1]
  split <;> rfl

/-- C4: each tick, every spawned-but-unfinished enemy moves 10% of the
remaining distance toward its formation target on each axis independently
(`new = 0.9 * current + 0.1 * target`), and if one enemy's new position
equals its target exactly on both axes its whole group is marked finished
(the current-group index is untouched); otherwise the spawn state is
unchanged. -/
theorem C4_enemy_dance :
    (∀ (ess : EnemySpawnStateQ) (e : EnemyEntity) (g : EnemyGroup),
        e.groupId ≤ ess.current_group →
        ess.groups[e.groupId]? = some g →
        g.finished = false →
        (danceStep ess e).2.transform.translation.x =
          (9 / 10) * e.transform.translation.x + (1 / 10) * danceFinalX e.enemyId ∧
        (danceStep ess e).2.transform.translation.y =
          (9 / 10) * e.transform.translation.y + (1 / 10) * danceFinalY e.groupId ∧
        ((danceStep ess e).2.transform.translation.x = danceFinalX e.enemyId ∧
            (danceStep ess e).2.transform.translation.y = danceFinalY e.groupId →
          (danceStep ess e).1.groups[e.groupId]? = some { g with finished := true } ∧
          (danceStep ess e).1.current_group = ess.current_group) ∧
        ((danceStep ess e).2.transform.translation.x ≠ danceFinalX e.enemyId ∨
            (danceStep ess e).2.transform.translation.y ≠ danceFinalY e.groupId →
          (danceStep ess e).1 = ess)) ∧
    (∀ (ess : EnemySpawnStateQ) (es : List EnemyEntity),
        (intro_enemy_group_dance ess es).2.length = es.length) := by
  constructor
  · intro ess e g h1 h2 h3
    rw [danceStep_eq ess e g h1 h2 h3]
    have hx : lerp e.transform.translation.x (danceFinalX e.enemyId) (1 / 10) =
        (9 / 10) * e.transform.translation.x + (1 / 10) * danceFinalX e.enemyId := by
      unfold lerp; ring
    have hy : lerp e.transform.translation.y (danceFinalY e.groupId) (1 / 10) =
        (9 / 10) * e.transform.translation.y + (1 / 10) * danceFinalY e.groupId := by
      unfold lerp; ring
    refine ⟨hx, hy, ?_, ?_⟩
    · intro hEq
      have hcond : lerp e.transform.translation.y (danceFinalY e.groupId) (1 / 10) =
            danceFinalY e.groupId ∧
          lerp e.transform.translation.x (danceFinalX e.enemyId) (1 / 10) =
            danceFinalX e.enemyId := by
        exact ⟨hEq.2, hEq.1⟩
      rw [if_pos hcond]
      exact ⟨setGroupFinished_getElem? ess.groups e.groupId g h2, rfl⟩
    · intro hNe
      have hcond : ¬ (lerp e.transform.translation.y (danceFinalY e.groupId) (1 / 10) =
            danceFinalY e.groupId ∧
          lerp e.transform.translation.x (danceFinalX e.enemyId) (1 / 10) =
            danceFinalX e.enemyId) := by
        rcases hNe with h | h
        · intro hc; exact h hc.2
        · intro hc; exact h hc.1
      rw [if_neg hcond]
  · intro ess es
    exact dance_length es ess

/-- A spawn state with one unfinished group, used to witness the dance. -/
def danceEss : EnemySpawnStateQ := ⟨1, [⟨[], false⟩]⟩

/-- An enemy of group 0, slot 0, already exactly at its formation target. -/
def danceE : EnemyEntity := ⟨⟨⟨-400, 20, 1⟩, ⟨30, 32, 0⟩⟩, 0, 0⟩

/-- Witness for `C4_enemy_dance`: an enemy sitting exactly at its target
stays there (`lerp t t 0.1 = t`) and its whole group gets marked finished. -/
theorem C4_enemy_dance_witness :
    (danceStep danceEss danceE).2.transform.translation.x =
      (9 / 10) * (-400) + (1 / 10) * danceFinalX 0 ∧
    (danceStep danceEss danceE).1.groups[0]? = some ⟨[], true⟩ := by
  have h := C4_enemy_dance.1 danceEss danceE ⟨[], false⟩ (by decide) rfl rfl
  have hfx : danceFinalX 0 = -400 := by
    norm_num [danceFinalX, ENEMY_LINE_POSITION, ENEMY_GAP, SIZE_SCALE]
  have hfy : danceFinalY 0 = 20 := by
    norm_num [danceFinalY, ENEMY_LINE_POSITION, ENEMY_GAP, SIZE_SCALE]
  have hex : danceE.transform.translation.x = -400 := rfl
  have hey : danceE.transform.translation.y = 20 := rfl
  have hei : danceE.enemyId = 0 := rfl
  have hgi : danceE.groupId = 0 := rfl
  have hxval : (danceStep danceEss danceE).2.transform.translation.x = danceFinalX 0 := by
    rw [h.1, hex, hei, hfx]
    norm_num
  have hyval : (danceStep danceEss danceE).2.transform.translation.y = danceFinalY 0 := by
    rw [h.2.1, hey, hgi, hfy]
    norm_num
  refine ⟨?_, ?_⟩
  · rw [h.1, hex, hei]
  · exact (h.2.2.1 ⟨hxval, hyval⟩).1

lemma shoot_step_fire (gs : GameStateQ) (hgs : gs.playing = true) (timer : TimerQ)
    (dt : ℚ) (pos : Vec3Q) (hfin : (timer.tick dt).finished = true) :
    shoot_projectile gs true timer dt pos =
      ⟨⟨timer.duration, 0⟩, 1, [spawnedProjectile pos]⟩ := by
  unfold shoot_projectile
  rw [hgs]
  show (if (timer.tick dt).finished = true
      then ({ timer := (timer.tick dt).reset, fireEvents := 1,
              spawned := [spawnedProjectile pos] } : ShootResult)
      else { timer := timer.tick dt, fireEvents := 0, spawned := [] }) = _
  rw [hfin]
  rfl

lemma shoot_step_wait (gs : GameStateQ) (hgs : gs.playing = true) (timer : TimerQ)
    (dt : ℚ) (pos : Vec3Q) (hfin : (timer.tick dt).finished = false) :
    shoot_projectile gs true timer dt pos = ⟨timer.tick dt, 0, []⟩ := by
  unfold shoot_projectile
  rw [hgs]
  show (if (timer.tick dt).finished = true
      then ({ timer := (timer.tick dt).reset, fireEvents := 1,
              spawned := [spawnedProjectile pos] } : ShootResult)
      else { timer := timer.tick dt, fireEvents := 0, spawned := [] }) = _
  rw [hfin]
  rfl

lemma fresh_timer_tick (k : ℕ) (hk : k < 18) :
    TimerQ.tick ⟨PROJECTILE_TIME_LIMIT, (k : ℚ) / 60⟩ TIME_STEP =
      ⟨PROJECTILE_TIME_LIMIT, ((k + 1 : ℕ) : ℚ) / 60⟩ := by
  unfold TimerQ.tick TIME_STEP PROJECTILE_TIME_LIMIT
  have h1 : (k : ℚ) / 60 + 1 / 60 = ((k + 1 : ℕ) : ℚ) / 60 := by
    push_cast
    ring
  have h2 : ((k + 1 : ℕ) : ℚ) / 60 ≤ 3 / 10 := by
    rw [div_le_iff₀ (by norm_num)]
    push_cast
    have : (k : ℚ) + 1 ≤ 18 := by exact_mod_cast hk
    linarith
  simp only [h1]
  rw [min_eq_left h2]

lemma shoot_run_inv (gs : GameStateQ) (pos : Vec3Q) (hgs : gs.playing = true) :
    ∀ (n k : ℕ), k < 18 →
      shoot_projectile_run gs true pos n ⟨PROJECTILE_TIME_LIMIT, (k : ℚ) / 60⟩ =
        (⟨PROJECTILE_TIME_LIMIT, (((k + n) % 18 : ℕ) : ℚ) / 60⟩, (k + n) / 18) := by
  intro n
  induction n with
  | zero =>
    intro k hk
    simp [shoot_projectile_run, Nat.mod_eq_of_lt hk, Nat.div_eq_of_lt hk]
  | succ n ih =>
    intro k hk
    show (let out := shoot_projectile gs true ⟨PROJECTILE_TIME_LIMIT, (k : ℚ) / 60⟩ TIME_STEP pos
      let rest := shoot_projectile_run gs true pos n out.timer
      ((rest.1, out.spawned.length + rest.2) : TimerQ × ℕ)) = _
    by_cases hk17 : k = 17
    · subst hk17
      have hfin : ((⟨PROJECTILE_TIME_LIMIT, ((17 : ℕ) : ℚ) / 60⟩ : TimerQ).tick
          TIME_STEP).finished = true := by
        rw [fresh_timer_tick 17 (by norm_num)]
        unfold TimerQ.finished PROJECTILE_TIME_LIMIT
        norm_num
      rw [shoot_step_fire gs hgs _ TIME_STEP pos hfin]
      have h0 := ih 0 (by norm_num)
      have hz : ((0 : ℕ) : ℚ) / 60 = 0 := by norm_num
      rw [hz] at h0
      show ((shoot_projectile_run gs true pos n ⟨PROJECTILE_TIME_LIMIT, 0⟩).1,
        1 + (shoot_projectile_run gs true pos n ⟨PROJECTILE_TIME_LIMIT, 0⟩).2) = _
      rw [h0]
      have hm : (0 + n) % 18 = (17 + (n + 1)) % 18 := by omega
      have hd : 1 + (0 + n) / 18 = (17 + (n + 1)) / 18 := by omega
      rw [hm, hd]
    · have hklt : k + 1 < 18 := by omega
      have hfin : ((⟨PROJECTILE_TIME_LIMIT, (k : ℚ) / 60⟩ : TimerQ).tick
          TIME_STEP).finished = false := by
        rw [fresh_timer_tick k hk]
        unfold TimerQ.finished PROJECTILE_TIME_LIMIT
        simp only [decide_eq_false_iff_not, not_le]
        rw [div_lt_iff₀ (by norm_num)]
        push_cast
        have : (k : ℚ) + 1 < 18 := by exact_mod_cast hklt
        linarith
      rw [shoot_step_wait gs hgs _ TIME_STEP pos hfin, fresh_timer_tick k hk]
      have hrest := ih (k + 1) hklt
      show ((shoot_projectile_run gs true pos n
          ⟨PROJECTILE_TIME_LIMIT, ((k + 1 : ℕ) : ℚ) / 60⟩).1,
        0 + (shoot_projectile_run gs true pos n
          ⟨PROJECTILE_TIME_LIMIT, ((k + 1 : ℕ) : ℚ) / 60⟩).2) = _
      rw [hrest]
      have hm : (k + 1 + n) % 18 = (k + (n + 1)) % 18 := by omega
      have hd : 0 + (k + 1 + n) / 18 = (k + (n + 1)) / 18 := by omega
      rw [hm, hd]

lemma floor_ticks_eq (n : ℕ) :
    Nat.floor ((n : ℚ) * TIME_STEP / PROJECTILE_TIME_LIMIT) = n / 18 := by
  have h : (n : ℚ) * TIME_STEP / PROJECTILE_TIME_LIMIT = (n : ℚ) / ((18 : ℕ) : ℚ) := by
    unfold TIME_STEP PROJECTILE_TIME_LIMIT
    push_cast
    ring
  rw [h, Nat.floor_div_nat, Nat.floor_natCast]

/-- C5: under the playing gate with the fire key held, a completed cooldown
resets the timer to zero elapsed, sends exactly one fire signal and spawns
exactly one projectile at the player's translation; holding the key
continuously over `n` fixed ticks from a fresh cooldown spawns `n / 18`
projectiles, which equals `⌊n * TIME_STEP / PROJECTILE_TIME_LIMIT⌋` —
exactly one spawn per completed 0.3 s cooldown. -/
theorem C5_firing :
    (∀ (gs : GameStateQ) (timer : TimerQ) (dt : ℚ) (pos : Vec3Q),
        gs.playing = true → (timer.tick dt).finished = true →
        shoot_projectile gs true timer dt pos =
          ⟨⟨timer.duration, 0⟩, 1, [spawnedProjectile pos]⟩) ∧
    (∀ (gs : GameStateQ) (pos : Vec3Q) (n : ℕ),
        gs.playing = true →
        (shoot_projectile_run gs true pos n ⟨PROJECTILE_TIME_LIMIT, 0⟩).2 = n / 18 ∧
        n / 18 = Nat.floor ((n : ℚ) * TIME_STEP / PROJECTILE_TIME_LIMIT)) := by
  constructor
  · intro gs timer dt pos hgs hfin
    exact shoot_step_fire gs hgs timer dt pos hfin
  · intro gs pos n hgs
    constructor
    · have h := shoot_run_inv gs pos hgs n 0 (by norm_num)
      have hz : ((0 : ℕ) : ℚ) / 60 = 0 := by norm_num
      rw [hz] at h
      rw [h]
      show (0 + n) / 18 = n / 18
      omega
    · rw [floor_ticks_eq]

/-- Witness for `C5_firing`: a just-completed cooldown fires and resets, and
36 gated ticks (0.6 s) with the key held produce exactly 2 spawns. -/
theorem C5_firing_witness :
    shoot_projectile ⟨true, false, false, 1⟩ true
        ⟨PROJECTILE_TIME_LIMIT, PROJECTILE_TIME_LIMIT⟩ TIME_STEP ⟨0, -300, 1⟩ =
      ⟨⟨PROJECTILE_TIME_LIMIT, 0⟩, 1, [spawnedProjectile ⟨0, -300, 1⟩]⟩ ∧
    (shoot_projectile_run ⟨true, false, false, 1⟩ true ⟨0, -300, 1⟩ 36
        ⟨PROJECTILE_TIME_LIMIT, 0⟩).2 = 2 ∧
    Nat.floor (((36 : ℕ) : ℚ) * TIME_STEP / PROJECTILE_TIME_LIMIT) = 2 := by
  have hgs : (⟨true, false, false, 1⟩ : GameStateQ).playing = true := rfl
  have hfin : (TimerQ.tick ⟨PROJECTILE_TIME_LIMIT, PROJECTILE_TIME_LIMIT⟩ TIME_STEP).finished
      = true := by
    unfold TimerQ.tick TimerQ.finished PROJECTILE_TIME_LIMIT TIME_STEP
    have : min ((3 : ℚ) / 10 + 1 / 60) (3 / 10) = 3 / 10 := min_eq_right (by norm_num)
    simp [this]
  have h1 := C5_firing.1 ⟨true, false, false, 1⟩ ⟨PROJECTILE_TIME_LIMIT, PROJECTILE_TIME_LIMIT⟩
    TIME_STEP ⟨0, -300, 1⟩ hgs hfin
  have h2 := C5_firing.2 ⟨true, false, false, 1⟩ ⟨0, -300, 1⟩ 36 hgs
  refine ⟨h1, ?_, ?_⟩
  · rw [h2.1]
  · rw [← h2.2]

lemma choreo_step_done (s : ChoreoState) (dt : ℚ)
    (h : s.ess.current_group = s.ess.groups.length) :
    spawn_enemy_group s dt = (⟨s.ess, s.timer, s.now + dt⟩, none) := by
  unfold spawn_enemy_group
  rw [if_pos h]

lemma choreo_step_release (s : ChoreoState) (dt : ℚ)
    (h : ¬ s.ess.current_group = s.ess.groups.length)
    (hfin : (s.timer.tick dt).finished = true) :
    spawn_enemy_group s dt =
      (⟨⟨s.ess.current_group + 1, s.ess.groups⟩, ⟨s.timer.duration, 0⟩, s.now + dt⟩,
       some ⟨s.ess.current_group,
         spawnGroupMembers s.ess.current_group
           ((s.ess.groups[s.ess.current_group]?).getD ⟨[], false⟩),
         s.now + dt⟩) := by
  unfold spawn_enemy_group
  rw [if_neg h]
  show (if (s.timer.tick dt).finished = true
      then ((⟨⟨s.ess.current_group + 1, s.ess.groups⟩,
              ⟨s.timer.duration, 0⟩, s.now + dt⟩ : ChoreoState),
            some (⟨s.ess.current_group,
              spawnGroupMembers s.ess.current_group
                ((s.ess.groups[s.ess.current_group]?).getD ⟨[], false⟩),
              s.now + dt⟩ : ReleaseRec))
      else (⟨s.ess, s.timer.tick dt, s.now + dt⟩, none)) = _
  rw [hfin]
  rfl

lemma choreo_step_wait (s : ChoreoState) (dt : ℚ)
    (h : ¬ s.ess.current_group = s.ess.groups.length)
    (hfin : (s.timer.tick dt).finished = false) :
    spawn_enemy_group s dt = (⟨s.ess, s.timer.tick dt, s.now + dt⟩, none) := by
  unfold spawn_enemy_group
  rw [if_neg h]
  show (if (s.timer.tick dt).finished = true
      then ((⟨⟨s.ess.current_group + 1, s.ess.groups⟩,
              ⟨s.timer.duration, 0⟩, s.now + dt⟩ : ChoreoState),
            some (⟨s.ess.current_group,
              spawnGroupMembers s.ess.current_group
                ((s.ess.groups[s.ess.current_group]?).getD ⟨[], false⟩),
              s.now + dt⟩ : ReleaseRec))
      else (⟨s.ess, s.timer.tick dt, s.now + dt⟩, none)) = _
  rw [hfin]
  rfl

lemma choreo_run_cons (s : ChoreoState) (dt : ℚ) (dts : List ℚ) :
    spawn_enemy_group_run s (dt :: dts) =
      ((spawn_enemy_group_run (spawn_enemy_group s dt).1 dts).1,
       (spawn_enemy_group s dt).2.toList ++
         (spawn_enemy_group_run (spawn_enemy_group s dt).1 dts).2) := rfl

lemma tick_finished_le {t : TimerQ} {dt : ℚ} (hfin : (t.tick dt).finished = true) :
    t.duration ≤ t.elapsed + dt := by
  unfold TimerQ.finished TimerQ.tick at hfin
  simp only [decide_eq_true_eq] at hfin
  exact le_trans hfin (min_le_left _ _)

/-- Everything `spawn_enemy_group` guarantees over a whole run: the groups
are untouched, the current-group index advances once per release, releases
carry consecutive group indices, each release spawns the whole group, the
first release waits out the remaining cooldown, and consecutive releases
are separated by at least the full cooldown. -/
structure ChoreoRunSpec (s : ChoreoState) (out : ChoreoState × List ReleaseRec) : Prop where
  groups_eq : out.1.ess.groups = s.ess.groups
  current_eq : out.1.ess.current_group = s.ess.current_group + out.2.length
  current_le : out.1.ess.current_group ≤ s.ess.groups.length
  idx_eq : out.2.map ReleaseRec.groupIdx = List.range' s.ess.current_group out.2.length
  counts : ∀ rec ∈ out.2, ∃ g, s.ess.groups[rec.groupIdx]? = some g ∧
    rec.members.length = g.group.length
  head_time : ∀ first ∈ out.2.head?, s.now + (ENEMY_TIME - s.timer.elapsed) ≤ first.time
  chain : List.Chain' (fun a b => a.time + ENEMY_TIME ≤ b.time) out.2
  timer_dur : out.1.timer.duration = ENEMY_TIME
  timer_lo : 0 ≤ out.1.timer.elapsed
  timer_hi : out.1.timer.elapsed ≤ ENEMY_TIME

lemma choreo_run_spec (dts : List ℚ) :
    ∀ s : ChoreoState,
      (∀ d ∈ dts, 0 ≤ d) →
      s.timer.duration = ENEMY_TIME →
      0 ≤ s.timer.elapsed →
      s.timer.elapsed ≤ ENEMY_TIME →
      s.ess.current_group ≤ s.ess.groups.length →
      ChoreoRunSpec s (spawn_enemy_group_run s dts) := by
  induction dts with
  | nil =>
    intro s _ hdur hlo hhi hcur
    show ChoreoRunSpec s (s, [])
    refine ⟨rfl, by simp, hcur, by simp [List.range'], ?_, ?_, ?_, hdur, hlo, hhi⟩
    · intro rec h
      simp at h
    · intro f h
      simp at h
    · exact List.chain'_nil
  | cons dt dts ih =>
    intro s hd hdur hlo hhi hcur
    have hdt : 0 ≤ dt := hd dt (by simp)
    have hdts : ∀ d ∈ dts, 0 ≤ d := fun d hm => hd d (by simp [hm])
    have hE : (0 : ℚ) ≤ ENEMY_TIME := by norm_num [ENEMY_TIME]
    by_cases hend : s.ess.current_group = s.ess.groups.length
    · rw [choreo_run_cons, choreo_step_done s dt hend]
      have ihs := ih ⟨s.ess, s.timer, s.now + dt⟩ hdts hdur hlo hhi hcur
      simp only [Option.toList_none, List.nil_append]
      refine ⟨ihs.groups_eq, ihs.current_eq, ihs.current_le, ihs.idx_eq, ihs.counts,
        ?_, ihs.chain, ihs.timer_dur, ihs.timer_lo, ihs.timer_hi⟩
      intro f hf
      have h := ihs.head_time f hf
      dsimp only [] at h
      show s.now + (ENEMY_TIME - s.timer.elapsed) ≤ f.time
      linarith
    · by_cases hfin : (s.timer.tick dt).finished = true
      · rw [choreo_run_cons, choreo_step_release s dt hend hfin]
        simp only [Option.toList_some, List.singleton_append]
        have hlt : s.ess.current_group < s.ess.groups.length :=
          Nat.lt_of_le_of_ne hcur hend
        obtain ⟨g, hg⟩ : ∃ g, s.ess.groups[s.ess.current_group]? = some g := by
          rw [List.getElem?_eq_getElem hlt]
          exact ⟨_, rfl⟩
        have hEdt : ENEMY_TIME ≤ s.timer.elapsed + dt := by
          have := tick_finished_le hfin
          rw [hdur] at this
          exact this
        have ihs := ih
          ⟨⟨s.ess.current_group + 1, s.ess.groups⟩, ⟨s.timer.duration, 0⟩, s.now + dt⟩
          hdts hdur le_rfl hE hlt
        refine ⟨ihs.groups_eq, ?_, ihs.current_le, ?_, ?_, ?_, ?_,
          ihs.timer_dur, ihs.timer_lo, ihs.timer_hi⟩
        · have h := ihs.current_eq
          dsimp only [] at h ⊢
          rw [List.length_cons, h]
          ring
        · have h := ihs.idx_eq
          dsimp only [] at h ⊢
          rw [List.map_cons, List.length_cons, List.range'_succ, h]
        · intro rec hmem
          rcases List.mem_cons.mp hmem with hrec | hrec
          · subst hrec
            refine ⟨g, hg, ?_⟩
            show (spawnGroupMembers s.ess.current_group
              ((s.ess.groups[s.ess.current_group]?).getD ⟨[], false⟩)).length = _
            rw [hg]
            simp [spawnGroupMembers]
          · exact ihs.counts rec hrec
        · intro f hf
          simp only [List.head?_cons, Option.mem_def, Option.some.injEq] at hf
          subst hf
          show s.now + (ENEMY_TIME - s.timer.elapsed) ≤ s.now + dt
          linarith
        · rw [List.chain'_cons']
          refine ⟨?_, ihs.chain⟩
          intro b hb
          have h := ihs.head_time b hb
          dsimp only [] at h
          show s.now + dt + ENEMY_TIME ≤ b.time
          linarith
      · have hfin' : (s.timer.tick dt).finished = false := Bool.eq_false_iff.mpr hfin
        rw [choreo_run_cons, choreo_step_wait s dt hend hfin']
        simp only [Option.toList_none, List.nil_append]
        have hmin1 : (s.timer.tick dt).elapsed ≤ s.timer.elapsed + dt := by
          unfold TimerQ.tick
          exact min_le_left _ _
        have htickdur : (s.timer.tick dt).duration = ENEMY_TIME := by
          unfold TimerQ.tick
          exact hdur
        have htlo : 0 ≤ (s.timer.tick dt).elapsed := by
          unfold TimerQ.tick
          refine le_min (by linarith) ?_
          rw [hdur]
          exact hE
        have hthi : (s.timer.tick dt).elapsed ≤ ENEMY_TIME := by
          unfold TimerQ.tick
          rw [← hdur]
          exact min_le_right _ _
        have ihs := ih ⟨s.ess, s.timer.tick dt, s.now + dt⟩
          hdts htickdur htlo hthi hcur
        refine ⟨ihs.groups_eq, ihs.current_eq, ihs.current_le, ihs.idx_eq, ihs.counts,
          ?_, ihs.chain, ihs.timer_dur, ihs.timer_lo, ihs.timer_hi⟩
        intro f hf
        have h := ihs.head_time f hf
        dsimp only [] at h
        show s.now + (ENEMY_TIME - s.timer.elapsed) ≤ f.time
        linarith

lemma spawn_enemies_snd (evs : List ℕ) (gs : GameStateQ) (ess : EnemySpawnStateQ)
    (h : evs ≠ []) :
    (spawn_enemies evs gs ess).2 =
      ⟨0, (List.range 2).map fun _ =>
        ⟨(List.range ENEMY_COUNT).map fun (enemy_id : ℕ) =>
          ⟨EnemyTypes.GreenBug,
            ENEMY_LINE_POSITION + ⟨(enemy_id : ℚ) * ENEMY_GAP, 0, 0⟩⟩,
         false⟩⟩ := by
  unfold spawn_enemies
  have hne : evs.isEmpty = false := by simpa [List.isEmpty_iff] using h
  rw [hne]
  rfl

lemma mem_of_getElem?_eq {α : Type} {l : List α} {i : ℕ} {a : α}
    (h : l[i]? = some a) : a ∈ l := by
  obtain ⟨hlt, rfl⟩ := List.getElem?_eq_some_iff.mp h
  exact List.getElem_mem hlt

/-- C2: a level-start signal makes the choreographer build exactly 2 groups
of `ENEMY_COUNT = 20` enemies each with the current-group index reset to 0;
over any subsequent run of nonnegative frame deltas, groups are released in
increasing order starting from 0, each release spawns a full group of 20,
at most 2 groups (hence at most 40 enemies) are ever spawned — exactly
`2 * 20 = 40` once the run releases every group — and consecutive releases
are separated by at least the `ENEMY_TIME` cooldown. -/
theorem C2_choreographer :
    (∀ (evs : List ℕ) (gs : GameStateQ) (ess : EnemySpawnStateQ), evs ≠ [] →
        (spawn_enemies evs gs ess).2.groups.length = 2 ∧
        (∀ g ∈ (spawn_enemies evs gs ess).2.groups, g.group.length = ENEMY_COUNT) ∧
        (spawn_enemies evs gs ess).2.current_group = 0) ∧
    (∀ (evs : List ℕ) (gs : GameStateQ) (ess : EnemySpawnStateQ) (t0 e0 : ℚ)
        (dts : List ℚ), evs ≠ [] → (∀ d ∈ dts, 0 ≤ d) →
        0 ≤ e0 → e0 ≤ ENEMY_TIME →
        (spawn_enemy_group_run
            ⟨(spawn_enemies evs gs ess).2, ⟨ENEMY_TIME, e0⟩, t0⟩ dts).2.map
            ReleaseRec.groupIdx =
          List.range' 0 (spawn_enemy_group_run
            ⟨(spawn_enemies evs gs ess).2, ⟨ENEMY_TIME, e0⟩, t0⟩ dts).2.length ∧
        (∀ rec ∈ (spawn_enemy_group_run
            ⟨(spawn_enemies evs gs ess).2, ⟨ENEMY_TIME, e0⟩, t0⟩ dts).2,
          rec.members.length = ENEMY_COUNT) ∧
        ((spawn_enemy_group_run
            ⟨(spawn_enemies evs gs ess).2, ⟨ENEMY_TIME, e0⟩, t0⟩ dts).2.map
            fun rec => rec.members.length).sum =
          ENEMY_COUNT * (spawn_enemy_group_run
            ⟨(spawn_enemies evs gs ess).2, ⟨ENEMY_TIME, e0⟩, t0⟩ dts).2.length ∧
        (spawn_enemy_group_run
            ⟨(spawn_enemies evs gs ess).2, ⟨ENEMY_TIME, e0⟩, t0⟩ dts).2.length ≤ 2 ∧
        ((spawn_enemy_group_run
              ⟨(spawn_enemies evs gs ess).2, ⟨ENEMY_TIME, e0⟩, t0⟩ dts).1.ess.current_group =
            (spawn_enemy_group_run
              ⟨(spawn_enemies evs gs ess).2, ⟨ENEMY_TIME, e0⟩, t0⟩ dts).1.ess.groups.length →
          ((spawn_enemy_group_run
              ⟨(spawn_enemies evs gs ess).2, ⟨ENEMY_TIME, e0⟩, t0⟩ dts).2.map
              fun rec => rec.members.length).sum = 2 * ENEMY_COUNT) ∧
        List.Chain' (fun a b => a.time + ENEMY_TIME ≤ b.time)
          (spawn_enemy_group_run
            ⟨(spawn_enemies evs gs ess).2, ⟨ENEMY_TIME, e0⟩, t0⟩ dts).2) := by
  have hbuild : ∀ (evs : List ℕ) (gs : GameStateQ) (ess : EnemySpawnStateQ), evs ≠ [] →
      (spawn_enemies evs gs ess).2.groups.length = 2 ∧
      (∀ g ∈ (spawn_enemies evs gs ess).2.groups, g.group.length = ENEMY_COUNT) ∧
      (spawn_enemies evs gs ess).2.current_group = 0 := by
    intro evs gs ess h
    rw [spawn_enemies_snd evs gs ess h]
    refine ⟨by simp, ?_, rfl⟩
    intro g hg
    simp only [List.mem_map] at hg
    obtain ⟨i, _, rfl⟩ := hg
    simp
  refine ⟨hbuild, ?_⟩
  intro evs gs ess t0 e0 dts hne hd he0 hee
  obtain ⟨hlen2, hsizes, hcur0⟩ := hbuild evs gs ess hne
  have spec := choreo_run_spec dts ⟨(spawn_enemies evs gs ess).2, ⟨ENEMY_TIME, e0⟩, t0⟩
    hd rfl he0 hee (by dsimp only []; rw [hcur0]; exact Nat.zero_le _)
  have hcounts : ∀ rec ∈ (spawn_enemy_group_run
      ⟨(spawn_enemies evs gs ess).2, ⟨ENEMY_TIME, e0⟩, t0⟩ dts).2,
      rec.members.length = ENEMY_COUNT := by
    intro rec hmem
    obtain ⟨g, hget, hlen⟩ := spec.counts rec hmem
    dsimp only [] at hget
    have hgm : g ∈ (spawn_enemies evs gs ess).2.groups := mem_of_getElem?_eq hget
    rw [hlen, hsizes g hgm]
  have hsum : ((spawn_enemy_group_run
      ⟨(spawn_enemies evs gs ess).2, ⟨ENEMY_TIME, e0⟩, t0⟩ dts).2.map
      fun rec => rec.members.length).sum =
      ENEMY_COUNT * (spawn_enemy_group_run
        ⟨(spawn_enemies evs gs ess).2, ⟨ENEMY_TIME, e0⟩, t0⟩ dts).2.length := by
    rw [List.map_congr_left hcounts, List.map_const', List.sum_replicate, smul_eq_mul,
      Nat.mul_comm]
  have hidx : (spawn_enemy_group_run
      ⟨(spawn_enemies evs gs ess).2, ⟨ENEMY_TIME, e0⟩, t0⟩ dts).2.map
      ReleaseRec.groupIdx =
      List.range' 0 (spawn_enemy_group_run
        ⟨(spawn_enemies evs gs ess).2, ⟨ENEMY_TIME, e0⟩, t0⟩ dts).2.length := by
    have h := spec.idx_eq
    dsimp only [] at h
    rw [hcur0] at h
    exact h
  have hlenle : (spawn_enemy_group_run
      ⟨(spawn_enemies evs gs ess).2, ⟨ENEMY_TIME, e0⟩, t0⟩ dts).2.length ≤ 2 := by
    have h1 := spec.current_eq
    have h2 := spec.current_le
    dsimp only [] at h1 h2
    rw [hcur0] at h1
    rw [hlen2] at h2
    omega
  refine ⟨hidx, hcounts, hsum, hlenle, ?_, spec.chain⟩
  intro hfull
  have h1 := spec.current_eq
  have h2 := spec.groups_eq
  dsimp only [] at h1 h2
  rw [hcur0] at h1
  rw [hfull, h2, hlen2] at h1
  have hlen : (spawn_enemy_group_run
      ⟨(spawn_enemies evs gs ess).2, ⟨ENEMY_TIME, e0⟩, t0⟩ dts).2.length = 2 := by
    omega
  rw [hsum, hlen]
  exact Nat.mul_comm _ _

lemma choreo_fresh_fire : ((⟨ENEMY_TIME, 0⟩ : TimerQ).tick 3).finished = true := by
  unfold TimerQ.tick TimerQ.finished ENEMY_TIME
  norm_num

lemma run_two_full (G : List EnemyGroup) (hG : G.length = 2) :
    (spawn_enemy_group_run ⟨⟨0, G⟩, ⟨ENEMY_TIME, 0⟩, 0⟩ [3, 3]).1.ess.current_group =
      (spawn_enemy_group_run ⟨⟨0, G⟩, ⟨ENEMY_TIME, 0⟩, 0⟩ [3, 3]).1.ess.groups.length := by
  have h1 := choreo_step_release ⟨⟨0, G⟩, ⟨ENEMY_TIME, 0⟩, 0⟩ 3
    (by dsimp only []; rw [hG]; norm_num)
    (by dsimp only []; exact choreo_fresh_fire)
  rw [choreo_run_cons, h1]
  dsimp only []
  have h2 := choreo_step_release ⟨⟨0 + 1, G⟩, ⟨ENEMY_TIME, 0⟩, (0 : ℚ) + 3⟩ 3
    (by dsimp only []; rw [hG]; norm_num)
    (by dsimp only []; exact choreo_fresh_fire)
  rw [choreo_run_cons, h2]
  dsimp only []
  show (0 + 1 + 1 : ℕ) = G.length
  rw [hG]

/-- An arbitrary game state used to witness the choreographer run. -/
def c2gs : GameStateQ := ⟨true, false, false, 1⟩

/-- The empty pre-level spawn state. -/
def c2ess0 : EnemySpawnStateQ := ⟨0, []⟩

/-- Witness for `C2_choreographer`: a level-start signal followed by two
3-second frames releases both groups — 40 enemies in total, releases
separated by the full cooldown. -/
theorem C2_choreographer_witness :
    ((spawn_enemy_group_run ⟨(spawn_enemies [1] c2gs c2ess0).2, ⟨ENEMY_TIME, 0⟩, 0⟩
        [3, 3]).2.map fun rec => rec.members.length).sum = 2 * ENEMY_COUNT ∧
    List.Chain' (fun a b => a.time + ENEMY_TIME ≤ b.time)
      (spawn_enemy_group_run ⟨(spawn_enemies [1] c2gs c2ess0).2, ⟨ENEMY_TIME, 0⟩, 0⟩
        [3, 3]).2 := by
  have hne : ([1] : List ℕ) ≠ [] := by decide
  have hd : ∀ d ∈ ([3, 3] : List ℚ), 0 ≤ d := by
    intro d hmem
    rcases List.mem_cons.mp hmem with h | h
    · rw [h]; norm_num
    · rw [List.mem_singleton.mp h]; norm_num
  have h := C2_choreographer.2 [1] c2gs c2ess0 0 0 [3, 3] hne hd le_rfl
    (by norm_num [ENEMY_TIME])
  have hsnd := spawn_enemies_snd [1] c2gs c2ess0 hne
  have hfull : (spawn_enemy_group_run
      ⟨(spawn_enemies [1] c2gs c2ess0).2, ⟨ENEMY_TIME, 0⟩, 0⟩ [3, 3]).1.ess.current_group =
      (spawn_enemy_group_run
        ⟨(spawn_enemies [1] c2gs c2ess0).2, ⟨ENEMY_TIME, 0⟩, 0⟩ [3, 3]).1.ess.groups.length := by
    rw [hsnd]
    exact run_two_full _ (by simp)
  exact ⟨h.2.2.2.2.1 hfull, h.2.2.2.2.2⟩

end Galaga
